import Mathlib

/-!
Verification of the Sandboxed Execution & Tool-Mediation Layer of CosmiFill
(`src/main/security/sandbox.ts` / `SecureSandbox`, `SandboxManager`, and
`src/main/security/secure-tools.ts` / `SecureToolHandler`).

The TypeScript code is shallowly embedded: Node's lexical path arithmetic
(`path.resolve`, `path.join`, `path.extname`, `path.dirname`) is modelled on
character lists, the filesystem is an explicit association list of files plus a
set of existing directories, the event-driven body of `executeCommand` is a
fold over an explicit event list, and every fallible operation returns
`Except` together with the list of security-audit events it emitted.
-/

namespace CosmiFill

/-! ## Lexical path model (Node `path` module, POSIX) -/

/-- Split a character list at `/` separators (keeping empty segments). -/
def splitSlash : List Char → List Char → List (List Char)
  | [], acc => [acc.reverse]
  | c :: cs, acc =>
    if c = '/' then acc.reverse :: splitSlash cs [] else splitSlash cs (c :: acc)

/-- The non-empty `/`-separated segments of a path string. -/
def rawSegs (s : String) : List String :=
  ((splitSlash s.data []).filter (fun seg => seg ≠ [])).map (fun seg => ⟨seg⟩)

/-- One step of Node's lexical normalization of an absolute path:
`.` segments vanish, `..` pops the previous segment (clamped at the root). -/
def normStep (acc : List String) (seg : String) : List String :=
  if seg = "." then acc
  else if seg = ".." then acc.dropLast
  else acc ++ [seg]

/-- Normalize the segments of an absolute path (`.`/`..` removal). -/
def normSegs (segs : List String) : List String :=
  segs.foldl normStep []

/-- Rebuild an absolute path string from its segments (`[]` is the root `/`). -/
def mkAbs (segs : List String) : String :=
  "/" ++ String.intercalate "/" segs

/-- Segments of an absolute path after normalization. -/
def absSegs (s : String) : List String :=
  normSegs (rawSegs s)

/-- Whether a string starts with `/` (is absolute). -/
def isAbsolute (s : String) : Bool :=
  match s.data with
  | '/' :: _ => true
  | _ => false

/-- Node `path.resolve(base, p)` for an absolute `base`: an absolute `p`
restarts at the root, otherwise `p` is joined onto `base`; the result is
normalized either way. -/
def pathResolve (base p : String) : String :=
  if isAbsolute p then mkAbs (absSegs p)
  else mkAbs (normSegs (rawSegs base ++ rawSegs p))

/-- Node `path.join(base, p)` for an absolute `base`: concatenation of the
segments followed by normalization. -/
def pathJoin (base p : String) : String :=
  mkAbs (normSegs (rawSegs base ++ rawSegs p))

/-- Node `path.dirname` of a normalized absolute path: drop the last segment. -/
def dirnameStr (p : String) : String :=
  mkAbs ((absSegs p).dropLast)

/-- JavaScript `String.prototype.startsWith`: raw character-wise string
prefix (this is exactly what `resolved.startsWith(allowedPath)` does in
`SecureSandbox.validatePath` — it is not segment-aligned). -/
def jsStartsWith (s pre : String) : Bool :=
  pre.data.isPrefixOf s.data

/-- Node `path.extname`: the suffix of the last path segment from its final
dot, except that a nameless leading-dot file (`.pdf`), `..`, a dotless name,
and an empty basename have no extension. -/
def extnameStr (p : String) : String :=
  match (((splitSlash p.data []).filter (fun seg => seg ≠ [])).getLastD []) with
  | b =>
    if b = ['.', '.'] then ""
    else
      match splitDot b [] with
      | parts =>
        if parts.length ≤ 1 then ""
        else if parts.length = 2 ∧ parts.headD [] = [] then ""
        else ⟨'.' :: parts.getLastD []⟩
where
  splitDot : List Char → List Char → List (List Char)
    | [], acc => [acc.reverse]
    | c :: cs, acc =>
      if c = '.' then acc.reverse :: splitDot cs [] else splitDot cs (c :: acc)

/-- JavaScript `String.prototype.toLowerCase` on ASCII data, character by
character (used by `writeFile`'s `path.extname(filePath).toLowerCase()`). -/
def lowerStr (s : String) : String :=
  ⟨s.data.map Char.toLower⟩

/-! ## Sandbox configuration and path validation -/

/-- The `SandboxConfig` interface of `sandbox.ts`. -/
structure SandboxConfig where
  sessionId : String
  workDir : String
  allowedPaths : List String
  timeout : Nat
  deriving DecidableEq, Repr

/-- `SecureSandbox.validatePath`: resolve the requested path against the
session working directory, then accept iff the resolved string starts with
some entry of `allowedPaths` (a raw `String.startsWith` check). -/
def validatePath (cfg : SandboxConfig) (requestedPath : String) : Bool :=
  cfg.allowedPaths.any (fun allowedPath =>
    jsStartsWith (pathResolve cfg.workDir requestedPath) allowedPath)

/-- Spec-side containment predicate: `p` is `root` itself or a strict
descendant of `root` (a path extending `root` at a segment boundary). -/
def isDescendantOrSelf (root p : String) : Bool :=
  p = root || jsStartsWith p (root ++ "/")

/-! ## Symlink model (for the symlink-bypass claim)

`validatePath` in the source never consults the filesystem, so symbolic links
are modelled only on the specification side: a link table maps an absolute
path to an absolute target, and real resolution expands the first matching
link met while walking the lexically resolved segments. -/

/-- Expand symlinks along the segments of a lexically resolved absolute path:
whenever the path built so far is a link source, continue from the link's
target. -/
def expandLinks (links : List (String × String)) (segs : List String) : List String :=
  segs.foldl
    (fun acc seg =>
      match links.find? (fun e => e.1 = mkAbs (acc ++ [seg])) with
      | some e => absSegs e.2
      | none => acc ++ [seg])
    []

/-- The real (symlink-following) resolution of a request against a root. -/
def realResolvePath (links : List (String × String)) (root p : String) : String :=
  mkAbs (expandLinks links (absSegs (pathResolve root p)))

/-- Modelled from the spec: the containment check §4.1 demands — symlinks are
resolved first, then the resolved path must be equal to or a descendant of an
allowed entry. The code has no counterpart of this; it is stated only to be
compared with `validatePath`. -/
def specValidateWithLinks (links : List (String × String)) (cfg : SandboxConfig)
    (p : String) : Bool :=
  cfg.allowedPaths.any (fun a => isDescendantOrSelf a (realResolvePath links cfg.workDir p))

/-- The session used by the concrete scenarios: root `/tmp/s1`, the allowed
set containing just the root, the manager's default 30000 ms timeout. -/
def s1cfg : SandboxConfig :=
  { sessionId := "s1", workDir := "/tmp/s1", allowedPaths := ["/tmp/s1"], timeout := 30000 }

/-- The symlink table of the planted-symlink scenario: `/tmp/s1/link`
points outside the root, at `/etc`. -/
def demoLinks : List (String × String) := [("/tmp/s1/link", "/etc")]

/-! ## Filesystem model, errors and audit events -/

/-- The filesystem visible to the sandbox: file contents keyed by absolute
path, plus the set of directories that exist (Node's `fs.writeFile` needs the
parent directory to exist already). -/
structure FileSystem where
  dirs : List String
  files : List (String × String)
  deriving DecidableEq, Repr

/-- Content of the file at absolute path `p`, when present. -/
def FileSystem.lookupFile (fs : FileSystem) (p : String) : Option String :=
  (fs.files.find? (fun e => e.1 = p)).map (fun e => e.2)

/-- Write (create or overwrite) the file at absolute path `p`. -/
def FileSystem.setFile (fs : FileSystem) (p content : String) : FileSystem :=
  { fs with files := (p, content) :: fs.files.filter (fun e => e.1 ≠ p) }

/-- Whether directory `p` exists. -/
def FileSystem.hasDir (fs : FileSystem) (p : String) : Bool :=
  fs.dirs.contains p

/-- `fs.mkdir(d, { recursive: true })`: `d` and all its ancestors exist
afterwards. -/
def FileSystem.mkdirRecursive (fs : FileSystem) (d : String) : FileSystem :=
  { fs with dirs := ((absSegs d).inits.map mkAbs) ++ fs.dirs }

/-- The error taxonomy of the sandbox layer.  `parentDirMissing` is Node's
`ENOENT` from `fs.writeFile` when the parent directory does not exist;
`notFound` is `ENOENT` on read/copy-source. -/
inductive SandboxError where
  | accessDenied (p : String)
  | typeNotAllowed (ext : String)
  | notFound (p : String)
  | parentDirMissing (p : String)
  | contentNotFound
  deriving DecidableEq, Repr

/-- A `logSecurityEvent` emission, with the fields the code passes. -/
inductive AuditEvent where
  | fileAccessDenied (sessionId p operation : String)
  | commandBlocked (sessionId command : String) (args : List String)
  deriving DecidableEq, Repr

/-- Decidable equality for `Except`, so concrete runs of the sandbox
operations can be checked by `decide`. -/
instance instDecEqExcept {ε α : Type} [DecidableEq ε] [DecidableEq α] :
    DecidableEq (Except ε α) := fun
  | .error e₁, .error e₂ =>
    if h : e₁ = e₂ then .isTrue (by rw [h]) else .isFalse (by simp [h])
  | .error _, .ok _ => .isFalse (fun h => Except.noConfusion h)
  | .ok _, .error _ => .isFalse (fun h => Except.noConfusion h)
  | .ok a₁, .ok a₂ =>
    if h : a₁ = a₂ then .isTrue (by rw [h]) else .isFalse (by simp [h])

/-! ## Sandbox file operations (`SecureSandbox`) -/

/-- `SecureSandbox.readFile`: join the request onto `workDir`, validate the
joined path; on denial emit a `file_access_denied` audit event and fail with
access-denied; otherwise return the file's content (`ENOENT` when absent). -/
def readFile (cfg : SandboxConfig) (fs : FileSystem) (filePath : String) :
    Except SandboxError String × List AuditEvent :=
  if validatePath cfg (pathJoin cfg.workDir filePath) then
    match fs.lookupFile (pathJoin cfg.workDir filePath) with
    | some content => (.ok content, [])
    | none => (.error (.notFound filePath), [])
  else
    (.error (.accessDenied filePath), [.fileAccessDenied cfg.sessionId filePath "read"])

/-- The fixed write-extension allow-list of `SecureSandbox.writeFile`. -/
def allowedExtensions : List String := [".pdf", ".json", ".txt", ".py", ".log"]

/-- `SecureSandbox.writeFile`: join and validate the path (denial emits no
audit event in the code), check the lower-cased extension against the
allow-list, then `fs.writeFile` — which fails when the parent directory does
not exist, and overwrites an existing file. -/
def writeFile (cfg : SandboxConfig) (fs : FileSystem) (filePath content : String) :
    Except SandboxError FileSystem × List AuditEvent :=
  if validatePath cfg (pathJoin cfg.workDir filePath) then
    if allowedExtensions.contains (lowerStr (extnameStr filePath)) then
      if fs.hasDir (dirnameStr (pathJoin cfg.workDir filePath)) then
        (.ok (fs.setFile (pathJoin cfg.workDir filePath) content), [])
      else
        (.error (.parentDirMissing filePath), [])
    else
      (.error (.typeNotAllowed (lowerStr (extnameStr filePath))), [])
  else
    (.error (.accessDenied filePath), [])

/-- `SecureSandbox.copyFiles`: for each pair validate only the destination
(denial throws without an audit event), create the destination directory
recursively, copy the source bytes; the first failure aborts the rest while
earlier copies stay in place. -/
def copyFiles (cfg : SandboxConfig) (fs : FileSystem) :
    List (String × String) → Except SandboxError FileSystem × List AuditEvent
  | [] => (.ok fs, [])
  | (source, destination) :: rest =>
    if validatePath cfg (pathJoin cfg.workDir destination) then
      match fs.lookupFile source with
      | some content =>
        copyFiles cfg
          (((fs.mkdirRecursive (dirnameStr (pathJoin cfg.workDir destination))).setFile
            (pathJoin cfg.workDir destination) content)) rest
      | none => (.error (.notFound source), [])
    else
      (.error (.accessDenied destination), [])

/-! ## JavaScript string search and replacement

`SecureToolHandler.handleEdit` uses `String.prototype.includes` and
`String.prototype.replace` with a string pattern.  Per ECMA-262, `replace`
rewrites the first occurrence only, and the replacement string interprets the
patterns `$$`, `$&`, a dollar before a backquote (the part before the match)
and `$'` (the part after the match); with a string pattern there are no
capture groups, so `$n` stays literal. -/

/-- Index of the first occurrence of `sub` in `s` (JS `indexOf` on lists). -/
def idxFrom (sub : List Char) : List Char → Option Nat
  | [] => if sub = [] then some 0 else none
  | c :: rest =>
    if sub.isPrefixOf (c :: rest) then some 0
    else (idxFrom sub rest).map (fun i => i + 1)

/-- JS `s.indexOf(sub)` as an `Option Nat`. -/
def jsIndexOf (s sub : String) : Option Nat :=
  idxFrom sub.data s.data

/-- JS `s.includes(sub)`. -/
def jsIncludes (s sub : String) : Bool :=
  (jsIndexOf s sub).isSome

/-- ECMA-262 `GetSubstitution` for a string search value (no captures):
expand `$$`, `$&`, dollar-backquote and dollar-quote in the replacement. -/
def getSubstitution (matched before after : List Char) : List Char → List Char
  | [] => []
  | c :: rest =>
    if c = '$' then
      match rest with
      | [] => ['$']
      | d :: rest₂ =>
        if d = '$' then '$' :: getSubstitution matched before after rest₂
        else if d = '&' then matched ++ getSubstitution matched before after rest₂
        else if d = '\'' then after ++ getSubstitution matched before after rest₂
        else if d = Char.ofNat 96 then before ++ getSubstitution matched before after rest₂
        else '$' :: d :: getSubstitution matched before after rest₂
    else c :: getSubstitution matched before after rest

/-- JS `s.replace(searchValue, replaceValue)` with string arguments: replace
the first occurrence of `searchValue`, expanding `$`-patterns in
`replaceValue`; without a match `s` is returned unchanged. -/
def jsReplaceFirst (s searchValue replaceValue : String) : String :=
  match jsIndexOf s searchValue with
  | none => s
  | some i =>
    ⟨s.data.take i ++
      getSubstitution searchValue.data (s.data.take i)
        (s.data.drop (i + searchValue.data.length)) replaceValue.data ++
      s.data.drop (i + searchValue.data.length)⟩

/-- `SecureToolHandler.handleEdit`: read the current content, fail with
content-not-found unless `oldContent` occurs in it, otherwise write back the
content with the first occurrence replaced (through `writeFile`, so the
extension allow-list applies to the write-back). -/
def handleEdit (cfg : SandboxConfig) (fs : FileSystem)
    (filePath oldContent newContent : String) :
    Except SandboxError FileSystem × List AuditEvent :=
  match readFile cfg fs filePath with
  | (.ok currentContent, _) =>
    if jsIncludes currentContent oldContent then
      writeFile cfg fs filePath (jsReplaceFirst currentContent oldContent newContent)
    else
      (.error .contentNotFound, [])
  | (.error e, audit) => (.error e, audit)

/-! ## Command execution (`SecureSandbox.executeCommand`)

After the whitelist check the code runs inside a `Promise` executor: the
spawned child emits stdout/stderr data chunks, exactly once an `error` or a
`close(code)` event, and a `setTimeout` timer may fire.  The body is embedded
as a fold of those events over an explicit state: the process-registry entry
(`processes.set`/`delete`), the kill flag, the accumulated output, and the
promise settlement (first `resolve`/`reject` wins, later ones are ignored). -/

/-- The fixed command whitelist of `executeCommand`. -/
def allowedCommands : List String := ["ls", "pwd", "echo", "python", "python3"]

/-- An event observed by the `executeCommand` promise executor. -/
inductive ExecEvent where
  | out (chunk : String)
  | errOut (chunk : String)
  | errored (msg : String)
  | closed (code : Option Int)
  | timerFired
  deriving DecidableEq, Repr

/-- A terminal outcome of one `executeCommand` invocation. -/
inductive ExecOutcome where
  | resolved (stdout stderr : String)
  | commandFailed (code : Option Int) (stderr : String)
  | timedOut
  | spawnError (msg : String)
  | commandBlocked (command : String)
  deriving DecidableEq, Repr

/-- The state of one in-flight invocation: whether its registry entry is
present, whether it was killed by the timeout handler, the accumulated output
streams, and the promise settlement. -/
structure ExecState where
  registered : Bool
  killed : Bool
  stdout : String
  stderr : String
  settled : Option ExecOutcome
  deriving DecidableEq, Repr

/-- State right after `spawn` and `processes.set`: entry registered, nothing
settled. -/
def initExecState : ExecState :=
  { registered := true, killed := false, stdout := "", stderr := "", settled := none }

/-- A promise settles once: a later `resolve`/`reject` keeps the first value. -/
def settleWith (st : ExecState) (o : ExecOutcome) : Option ExecOutcome :=
  some (st.settled.getD o)

/-- One event handler of the executor, mirroring the source: data handlers
append; `error` deletes the entry and rejects with a spawn error; `close`
deletes the entry and resolves on code 0, rejects with the code and stderr
otherwise; the timer, only if the entry is still registered, kills the
process, deletes the entry and rejects with a timeout. -/
def execStep (st : ExecState) : ExecEvent → ExecState
  | .out chunk => { st with stdout := st.stdout ++ chunk }
  | .errOut chunk => { st with stderr := st.stderr ++ chunk }
  | .errored msg =>
    { st with registered := false, settled := settleWith st (.spawnError msg) }
  | .closed code =>
    { st with
      registered := false
      settled := settleWith st
        (if code = some 0 then .resolved st.stdout st.stderr
         else .commandFailed code st.stderr) }
  | .timerFired =>
    if st.registered then
      { st with
      registered := false
      killed := true
      settled := settleWith st .timedOut }
    else st

/-- Run the executor over a full sequence of observed events. -/
def runEvents (events : List ExecEvent) : ExecState :=
  events.foldl execStep initExecState

/-- What one `executeCommand` call produces: the settlement (if any), the
audit events emitted, the number of processes spawned, and the final
executor state. -/
structure ExecResult where
  outcome : Option ExecOutcome
  audit : List AuditEvent
  spawned : Nat
  final : Option ExecState
  deriving DecidableEq, Repr

/-- `SecureSandbox.executeCommand`: a non-whitelisted command emits a
`command_blocked` audit event and fails immediately, spawning nothing;
a whitelisted one spawns exactly one process and runs the event loop. -/
def executeCommand (cfg : SandboxConfig) (command : String) (args : List String)
    (events : List ExecEvent) : ExecResult :=
  if allowedCommands.contains command then
    { outcome := (runEvents events).settled
      audit := []
      spawned := 1
      final := some (runEvents events) }
  else
    { outcome := some (.commandBlocked command)
      audit := [.commandBlocked cfg.sessionId command args]
      spawned := 0
      final := none }

/-- Whether an event settles the promise (spec-side classification). -/
def isTerminalEvent : ExecEvent → Bool
  | .out _ => false
  | .errOut _ => false
  | _ => true

/-- Spec-side reading of §4.2: the outcome is decided by the first terminal
event — spawn error, exit code 0 with the output captured so far, non-zero
exit with the stderr captured so far, or the timer. -/
def firstSettled (st : ExecState) : List ExecEvent → Option ExecOutcome
  | [] => none
  | .out chunk :: rest => firstSettled { st with stdout := st.stdout ++ chunk } rest
  | .errOut chunk :: rest => firstSettled { st with stderr := st.stderr ++ chunk } rest
  | .errored msg :: _ => some (.spawnError msg)
  | .closed code :: _ =>
    some (if code = some 0 then .resolved st.stdout st.stderr
          else .commandFailed code st.stderr)
  | .timerFired :: _ => some .timedOut

/-- A sample filesystem state for the concrete scenarios: the session root
exists and holds a `.txt` file containing `"Hello Hello"`, a `.csv` data file
and an old `.txt` file; no `sub` directory exists. -/
def demoFs : FileSystem :=
  { dirs := ["/", "/tmp", "/tmp/s1"]
    files := [("/tmp/s1/data.txt", "Hello Hello"), ("/tmp/s1/data.csv", "a,b"),
              ("/tmp/s1/old.txt", "old")] }

/-! ## Supporting lemmas -/

/-- A path that is `root` or a descendant of `root` in particular starts with
the string `root`. -/
theorem descendant_startsWith (root p : String) (h : isDescendantOrSelf root p = true) :
    jsStartsWith p root = true := by
  unfold isDescendantOrSelf at h
  rw [Bool.or_eq_true] at h
  rcases h with h | h
  · have hp : p = root := of_decide_eq_true h
    subst hp
    simp [jsStartsWith, List.isPrefixOf_iff_prefix]
  · unfold jsStartsWith at h ⊢
    rw [List.isPrefixOf_iff_prefix] at h ⊢
    refine List.IsPrefix.trans ?_ h
    rw [String.data_append]
    exact List.prefix_append _ _

/-- Once the promise is settled and the registry entry deleted, no later
event changes the settlement, and the entry stays deleted. -/
theorem execStep_settled_stable (st : ExecState) (e : ExecEvent) (o : ExecOutcome)
    (h1 : st.settled = some o) (h2 : st.registered = false) :
    (execStep st e).settled = some o ∧ (execStep st e).registered = false := by
  cases e <;> simp [execStep, settleWith, h1, h2]

/-- Settlement persistence over a whole remaining event sequence. -/
theorem foldl_settled_stable (events : List ExecEvent) :
    ∀ (st : ExecState) (o : ExecOutcome), st.settled = some o → st.registered = false →
      (events.foldl execStep st).settled = some o ∧
      (events.foldl execStep st).registered = false := by
  induction events with
  | nil => intro st o h1 h2; simpa using ⟨h1, h2⟩
  | cons e es ih =>
    intro st o h1 h2
    rw [List.foldl_cons]
    exact ih _ o (execStep_settled_stable st e o h1 h2).1
      (execStep_settled_stable st e o h1 h2).2

/-- From an unsettled, registered state, the executor settles exactly on the
first terminal event, with the value `firstSettled` describes. -/
theorem foldl_firstSettled (events : List ExecEvent) :
    ∀ st : ExecState, st.settled = none → st.registered = true →
      (events.foldl execStep st).settled = firstSettled st events := by
  induction events with
  | nil => intro st h1 h2; simpa [firstSettled] using h1
  | cons e es ih =>
    intro st h1 h2
    rw [List.foldl_cons]
    cases e with
    | out chunk =>
      exact ih { st with stdout := st.stdout ++ chunk } h1 h2
    | errOut chunk =>
      exact ih { st with stderr := st.stderr ++ chunk } h1 h2
    | errored msg =>
      have hstep : (execStep st (.errored msg)).settled = some (.spawnError msg) := by
        simp [execStep, settleWith, h1]
      have hreg : (execStep st (.errored msg)).registered = false := by
        simp [execStep]
      exact (foldl_settled_stable es _ _ hstep hreg).1
    | closed code =>
      have hstep : (execStep st (.closed code)).settled =
          some (if code = some 0 then .resolved st.stdout st.stderr
                else .commandFailed code st.stderr) := by
        simp [execStep, settleWith, h1]
      have hreg : (execStep st (.closed code)).registered = false := by
        simp [execStep]
      exact (foldl_settled_stable es _ _ hstep hreg).1
    | timerFired =>
      have hstep : (execStep st .timerFired).settled = some .timedOut := by
        simp [execStep, settleWith, h1, h2]
      have hreg : (execStep st .timerFired).registered = false := by
        simp [execStep, h2]
      exact (foldl_settled_stable es _ _ hstep hreg).1

/-- If any terminal event occurs, `firstSettled` produces an outcome. -/
theorem firstSettled_isSome (events : List ExecEvent) :
    ∀ st : ExecState, events.any isTerminalEvent = true →
      (firstSettled st events).isSome = true := by
  induction events with
  | nil => intro st h; simp at h
  | cons e es ih =>
    intro st h
    cases e with
    | out chunk =>
      refine ih _ ?_
      simpa [isTerminalEvent] using h
    | errOut chunk =>
      refine ih _ ?_
      simpa [isTerminalEvent] using h
    | errored msg => simp [firstSettled]
    | closed code => simp [firstSettled]
    | timerFired => simp [firstSettled]

/-- The registry/settlement invariant of one invocation: the entry is present
exactly while the promise is unsettled, and the kill flag is set exactly when
the settlement is a timeout. -/
def ExecGood (st : ExecState) : Prop :=
  st.registered = st.settled.isNone ∧ (st.killed = true ↔ st.settled = some .timedOut)

/-- Every executor event preserves the registry/settlement invariant. -/
theorem execStep_good (st : ExecState) (e : ExecEvent) (h : ExecGood st) :
    ExecGood (execStep st e) := by
  obtain ⟨h1, h2⟩ := h
  cases e with
  | out chunk => exact ⟨h1, h2⟩
  | errOut chunk => exact ⟨h1, h2⟩
  | errored msg =>
    cases hs : st.settled with
    | none =>
      refine ⟨by simp [execStep, settleWith, hs], ?_⟩
      rw [hs] at h2
      simp [execStep, settleWith, hs]
      simpa using h2
    | some o =>
      rw [hs] at h2
      exact ⟨by simp [execStep, settleWith, hs], by simpa [execStep, settleWith, hs] using h2⟩
  | closed code =>
    cases hs : st.settled with
    | none =>
      refine ⟨by simp [execStep, settleWith, hs], ?_⟩
      rw [hs] at h2
      have hk : st.killed = false := by
        cases hk : st.killed
        · rfl
        · exact absurd (h2.mp hk) (by simp)
      simp [execStep, settleWith, hs, hk]
      split <;> simp
    | some o =>
      rw [hs] at h2
      exact ⟨by simp [execStep, settleWith, hs], by simpa [execStep, settleWith, hs] using h2⟩
  | timerFired =>
    cases hr : st.registered with
    | false =>
      rw [show execStep st .timerFired = st from by simp [execStep, hr]]
      exact ⟨h1, h2⟩
    | true =>
      rw [hr] at h1
      have hs : st.settled = none := by
        cases hs : st.settled
        · rfl
        · rw [hs] at h1; simp at h1
      refine ⟨by simp [execStep, settleWith, hr, hs], ?_⟩
      simp [execStep, settleWith, hr, hs]

/-- The invariant holds at the end of any full event sequence. -/
theorem runEvents_good (events : List ExecEvent) : ExecGood (runEvents events) := by
  have hall : ∀ st : ExecState, ExecGood st → ExecGood (events.foldl execStep st) := by
    induction events with
    | nil => intro st h; simpa using h
    | cons e es ih =>
      intro st h
      rw [List.foldl_cons]
      exact ih _ (execStep_good st e h)
  exact hall initExecState ⟨rfl, by simp [initExecState]⟩

/-- `idxFrom` finds an actual occurrence. -/
theorem idxFrom_isPrefixOf (sub : List Char) :
    ∀ (s : List Char) (i : Nat), idxFrom sub s = some i →
      sub.isPrefixOf (s.drop i) = true := by
  intro s
  induction s with
  | nil =>
    intro i h
    by_cases hsub : sub = []
    · simp [idxFrom, hsub] at h
      subst hsub
      simp [← h]
    · simp [idxFrom, hsub] at h
  | cons c rest ih =>
    intro i h
    cases hp : sub.isPrefixOf (c :: rest) with
    | true =>
      rw [idxFrom, if_pos hp] at h
      cases h
      simpa using hp
    | false =>
      rw [idxFrom, if_neg (by simp [hp])] at h
      rw [Option.map_eq_some'] at h
      obtain ⟨j, hj, rfl⟩ := h
      simpa using ih j hj

/-- `idxFrom` finds the first occurrence: no earlier position matches. -/
theorem idxFrom_first (sub : List Char) :
    ∀ (s : List Char) (i : Nat), idxFrom sub s = some i →
      ∀ j, j < i → sub.isPrefixOf (s.drop j) = false := by
  intro s
  induction s with
  | nil =>
    intro i h j hj
    by_cases hsub : sub = []
    · simp [idxFrom, hsub] at h
      omega
    · simp [idxFrom, hsub] at h
  | cons c rest ih =>
    intro i h j hj
    cases hp : sub.isPrefixOf (c :: rest) with
    | true =>
      rw [idxFrom, if_pos hp] at h
      cases h
      omega
    | false =>
      rw [idxFrom, if_neg (by simp [hp])] at h
      rw [Option.map_eq_some'] at h
      obtain ⟨k, hk, rfl⟩ := h
      cases j with
      | zero => simpa using hp
      | succ j' =>
        have : j' < k := by omega
        simpa using ih k hk j' this

/-- A replacement string without `$` is substituted literally. -/
theorem getSubstitution_no_dollar (matched before after : List Char) :
    ∀ repl : List Char, (∀ c ∈ repl, c ≠ '$') →
      getSubstitution matched before after repl = repl := by
  intro repl
  induction repl with
  | nil => intro _; rfl
  | cons c rest ih =>
    intro h
    have hc : c ≠ '$' := h c (List.mem_cons_self c rest)
    have hrest := ih (fun d hd => h d (List.mem_cons_of_mem c hd))
    rw [getSubstitution.eq_def]
    simp [hc, hrest]

/-- `String.replace` with a `$`-free replacement splices the replacement in
at the first match literally. -/
theorem jsReplaceFirst_literal (s searchValue replaceValue : String) (i : Nat)
    (h1 : jsIndexOf s searchValue = some i)
    (h2 : ∀ c ∈ replaceValue.data, c ≠ '$') :
    jsReplaceFirst s searchValue replaceValue =
      ⟨s.data.take i ++ replaceValue.data ++
        s.data.drop (i + searchValue.data.length)⟩ := by
  simp only [jsReplaceFirst, h1]
  rw [getSubstitution_no_dollar _ _ _ _ h2]

/-! ## Claims -/

/-- C1, counterexample: with root `/tmp/s1` the relative traversal
`../s1x/evil` resolves to `/tmp/s1x/evil`, which is neither the root nor a
descendant of it (nor of any allowed entry), yet `validatePath` permits it:
the code checks a raw string prefix, so the descendant-only reading of the
claim is false. -/
theorem C1_counterexample :
    validatePath s1cfg "../s1x/evil" = true ∧
    pathResolve s1cfg.workDir "../s1x/evil" = "/tmp/s1x/evil" ∧
    isDescendantOrSelf "/tmp/s1" (pathResolve s1cfg.workDir "../s1x/evil") = false := by
  decide

/-- C1 (amended): for every session configuration and every requested path,
`validate_path` permits the request iff the path, resolved against the
session root and normalized of `.`/`..` segments, has some entry of the
allowed-path set as a raw string prefix.  Every path equal to or a descendant
of the session root, or of any allowed entry, is therefore permitted, and
Scenario A holds (`/tmp/s1/test.txt` allowed, `/etc/passwd` denied) — but
the prefix check is not the claimed descendant check, as sibling paths
extending an allowed entry's name (e.g. `/tmp/s1x/evil` under root
`/tmp/s1`) are also permitted. -/
theorem C1_validatePath_amended (cfg : SandboxConfig) (p : String) :
    (validatePath cfg p = true ↔
      ∃ a ∈ cfg.allowedPaths, jsStartsWith (pathResolve cfg.workDir p) a = true) ∧
    (∀ a ∈ cfg.allowedPaths,
      isDescendantOrSelf a (pathResolve cfg.workDir p) = true →
      validatePath cfg p = true) ∧
    (cfg.workDir ∈ cfg.allowedPaths →
      isDescendantOrSelf cfg.workDir (pathResolve cfg.workDir p) = true →
      validatePath cfg p = true) ∧
    validatePath s1cfg "/tmp/s1/test.txt" = true ∧
    validatePath s1cfg "/etc/passwd" = false := by
  have hperm : ∀ a ∈ cfg.allowedPaths,
      isDescendantOrSelf a (pathResolve cfg.workDir p) = true →
      validatePath cfg p = true := by
    intro a ha h
    have h2 := descendant_startsWith _ _ h
    simp only [validatePath, List.any_eq_true]
    exact ⟨a, ha, h2⟩
  refine ⟨?_, hperm, fun hroot => hperm cfg.workDir hroot, by decide, by decide⟩
  simp [validatePath, List.any_eq_true]

/-- C1 witness: under the Scenario A session, a traversal that stays inside
the root is permitted. -/
theorem C1_validatePath_amended_witness :
    ("/tmp/s1" ∈ s1cfg.allowedPaths ∧
      isDescendantOrSelf "/tmp/s1" (pathResolve s1cfg.workDir "sub/../note.txt") = true) ∧
    validatePath s1cfg "sub/../note.txt" = true :=
  ⟨⟨by decide, by decide⟩,
    (C1_validatePath_amended s1cfg "sub/../note.txt").2.1 "/tmp/s1" (by decide) (by decide)⟩

/-- C2, counterexample: with the symlink `/tmp/s1/link → /etc` planted inside
the root, the request `link/passwd` really resolves to `/etc/passwd`, outside
the root, yet `validatePath` permits it: no symlink resolution happens before
(or anywhere in) the containment check. -/
theorem C2_counterexample :
    realResolvePath demoLinks s1cfg.workDir "link/passwd" = "/etc/passwd" ∧
    isDescendantOrSelf "/tmp/s1" (realResolvePath demoLinks s1cfg.workDir "link/passwd") = false ∧
    validatePath s1cfg "link/passwd" = true := by
  decide

/-- C2 (amended): `validate_path` is purely lexical — it resolves the request
to `/tmp/s1/link/passwd` by string arithmetic and accepts, while the
spec-demanded check (resolve symlinks first, then containment) rejects the
same request; a symlink planted inside the root and pointing outside is
therefore not detected. -/
theorem C2_no_symlink_resolution :
    validatePath s1cfg "link/passwd" = true ∧
    pathResolve s1cfg.workDir "link/passwd" = "/tmp/s1/link/passwd" ∧
    specValidateWithLinks demoLinks s1cfg "link/passwd" = false := by
  decide

/-- C3: on a whitelisted command the invocation settles exactly once, with
the outcome decided by the first terminal event — spawn error ⇒ `SpawnError`,
exit code 0 ⇒ resolve with the captured stdout/stderr, non-zero exit ⇒
`CommandFailed` with the code and captured stderr, timer first ⇒ `TimedOut` —
and a `TimedOut` settlement guarantees the process was killed and its
registry entry removed. -/
theorem C3_exec_outcomes (cfg : SandboxConfig) (command : String) (args : List String)
    (events : List ExecEvent) (h : allowedCommands.contains command = true) :
    (executeCommand cfg command args events).outcome = firstSettled initExecState events ∧
    (events.any isTerminalEvent = true →
      (firstSettled initExecState events).isSome = true) ∧
    ((executeCommand cfg command args events).outcome = some .timedOut →
      (executeCommand cfg command args events).final = some (runEvents events) ∧
      (runEvents events).killed = true ∧ (runEvents events).registered = false) := by
  have hmem : command ∈ allowedCommands := by simpa using h
  have hout : (executeCommand cfg command args events).outcome = (runEvents events).settled := by
    simp [executeCommand, hmem]
  refine ⟨?_, firstSettled_isSome events initExecState, ?_⟩
  · rw [hout]
    exact foldl_firstSettled events initExecState rfl rfl
  · intro ht
    rw [hout] at ht
    have hg := runEvents_good events
    refine ⟨by simp [executeCommand, hmem], hg.2.mpr ht, ?_⟩
    have h1 := hg.1
    rw [ht] at h1
    simpa using h1

/-- C3 witness: a concrete run that exits with code 0 after emitting output
resolves with the captured stdout. -/
theorem C3_exec_outcomes_witness :
    allowedCommands.contains "python3" = true ∧
    (executeCommand s1cfg "python3" ["main.py"] [.out "ok", .closed (some 0)]).outcome =
      firstSettled initExecState [.out "ok", .closed (some 0)] :=
  ⟨by decide,
    (C3_exec_outcomes s1cfg "python3" ["main.py"] [.out "ok", .closed (some 0)] (by decide)).1⟩

/-- C4: for the final state of any whitelisted invocation, the registry entry
is present iff the promise is still unsettled (iff the process is believed
running); every terminal outcome therefore leaves the entry removed, and a
`TimedOut` settlement additionally guarantees the process was killed. -/
theorem C4_registry_invariant (cfg : SandboxConfig) (command : String) (args : List String)
    (events : List ExecEvent) (st : ExecState)
    (h : allowedCommands.contains command = true)
    (hst : (executeCommand cfg command args events).final = some st) :
    st.registered = st.settled.isNone ∧
    (st.settled.isSome = true → st.registered = false) ∧
    (st.settled = some .timedOut → st.killed = true ∧ st.registered = false) := by
  have hrun : st = runEvents events := by
    have hmem : command ∈ allowedCommands := by simpa using h
    simp [executeCommand, hmem] at hst
    exact hst.symm
  subst hrun
  have hg := runEvents_good events
  refine ⟨hg.1, ?_, ?_⟩
  · intro hs
    rw [hg.1]
    cases hset : (runEvents events).settled with
    | none => rw [hset] at hs; simp at hs
    | some o => simp
  · intro ht
    refine ⟨hg.2.mpr ht, ?_⟩
    rw [hg.1, ht]
    rfl

/-- C4 witness: a run where the timer fires first ends unregistered, killed,
and settled as timed out. -/
theorem C4_registry_invariant_witness :
    allowedCommands.contains "echo" = true ∧
    ((runEvents [.timerFired, .closed none]).registered =
        (runEvents [.timerFired, .closed none]).settled.isNone ∧
      ((runEvents [.timerFired, .closed none]).settled.isSome = true →
        (runEvents [.timerFired, .closed none]).registered = false) ∧
      ((runEvents [.timerFired, .closed none]).settled = some .timedOut →
        (runEvents [.timerFired, .closed none]).killed = true ∧
        (runEvents [.timerFired, .closed none]).registered = false)) :=
  ⟨by decide,
    C4_registry_invariant s1cfg "echo" [] [.timerFired, .closed none]
      (runEvents [.timerFired, .closed none]) (by decide) (by rfl)⟩

/-- C5: a command outside the whitelist `{ls, pwd, echo, python, python3}`
fails immediately as blocked, emits exactly one `command_blocked` audit event
carrying the session id, command and arguments, and spawns no process. -/
theorem C5_command_blocked (cfg : SandboxConfig) (command : String) (args : List String)
    (events : List ExecEvent) (h : allowedCommands.contains command = false) :
    executeCommand cfg command args events =
      { outcome := some (.commandBlocked command)
        audit := [.commandBlocked cfg.sessionId command args]
        spawned := 0
        final := none } := by
  have hnot : command ∉ allowedCommands := by simpa using h
  simp [executeCommand, hnot]

/-- C5 witness: Scenario C — `rm -rf /` is blocked with zero processes
created. -/
theorem C5_command_blocked_witness :
    allowedCommands.contains "rm" = false ∧
    executeCommand s1cfg "rm" ["-rf", "/"] [] =
      { outcome := some (.commandBlocked "rm")
        audit := [.commandBlocked s1cfg.sessionId "rm" ["-rf", "/"]]
        spawned := 0
        final := none } :=
  ⟨by decide, C5_command_blocked s1cfg "rm" ["-rf", "/"] [] (by decide)⟩

/-- C6: for a path whose joined resolution passes `validatePath`, `writeFile`
fails with a type-not-allowed error iff the path's extension, lower-cased, is
outside `{.pdf, .json, .txt, .py, .log}`; Scenario B holds concretely
(`test.exe` rejected, `test.pdf` written) and the comparison is
case-insensitive (`test.PDF` written). -/
theorem C6_extension_gate (cfg : SandboxConfig) (fs : FileSystem) (filePath content : String)
    (h : validatePath cfg (pathJoin cfg.workDir filePath) = true) :
    ((∃ e, (writeFile cfg fs filePath content).1 = .error (.typeNotAllowed e)) ↔
      allowedExtensions.contains (lowerStr (extnameStr filePath)) = false) ∧
    (writeFile s1cfg demoFs "test.exe" "x").1 = .error (.typeNotAllowed ".exe") ∧
    (writeFile s1cfg demoFs "test.pdf" "x").1 = .ok (demoFs.setFile "/tmp/s1/test.pdf" "x") ∧
    (writeFile s1cfg demoFs "test.PDF" "x").1 = .ok (demoFs.setFile "/tmp/s1/test.PDF" "x") := by
  refine ⟨?_, by decide, by decide, by decide⟩
  cases hext : allowedExtensions.contains (lowerStr (extnameStr filePath)) with
  | true =>
    have hmem : lowerStr (extnameStr filePath) ∈ allowedExtensions := by simpa using hext
    constructor
    · rintro ⟨e, he⟩
      cases hdir : fs.hasDir (dirnameStr (pathJoin cfg.workDir filePath)) with
      | true => simp [writeFile, h, hmem, hdir] at he
      | false => simp [writeFile, h, hmem, hdir] at he
    · intro hfalse
      simp at hfalse
  | false =>
    have hmem : lowerStr (extnameStr filePath) ∉ allowedExtensions := by simpa using hext
    constructor
    · intro _
      rfl
    · intro _
      refine ⟨lowerStr (extnameStr filePath), ?_⟩
      simp [writeFile, h, hmem]

/-- C6 witness: a validated relative path with a disallowed extension. -/
theorem C6_extension_gate_witness :
    validatePath s1cfg (pathJoin s1cfg.workDir "notes.md") = true ∧
    ((∃ e, (writeFile s1cfg demoFs "notes.md" "x").1 = .error (.typeNotAllowed e)) ↔
      allowedExtensions.contains (lowerStr (extnameStr "notes.md")) = false) :=
  ⟨by decide, (C6_extension_gate s1cfg demoFs "notes.md" "x" (by decide)).1⟩

/-- C7, counterexample: `sub/test.pdf` is validated and has an allowed
extension, but its parent directory `/tmp/s1/sub` does not exist, and
`writeFile` fails instead of creating it — the code calls `fs.writeFile`
without any `mkdir`, so the claimed parent-directory creation is false. -/
theorem C7_counterexample :
    validatePath s1cfg (pathJoin s1cfg.workDir "sub/test.pdf") = true ∧
    allowedExtensions.contains (lowerStr (extnameStr "sub/test.pdf")) = true ∧
    demoFs.hasDir (dirnameStr (pathJoin s1cfg.workDir "sub/test.pdf")) = false ∧
    (writeFile s1cfg demoFs "sub/test.pdf" "x").1 =
      .error (.parentDirMissing "sub/test.pdf") := by
  decide

/-- C7 (amended): `write_file` does not create missing parent directories —
it fails when the parent directory is absent; when the parent directory does
exist, the write succeeds and overwrites any previous contents of the file. -/
theorem C7_write_no_mkdir (cfg : SandboxConfig) (fs : FileSystem) (filePath content : String)
    (h1 : validatePath cfg (pathJoin cfg.workDir filePath) = true)
    (h2 : allowedExtensions.contains (lowerStr (extnameStr filePath)) = true)
    (h3 : fs.hasDir (dirnameStr (pathJoin cfg.workDir filePath)) = false) :
    (writeFile cfg fs filePath content).1 = .error (.parentDirMissing filePath) ∧
    ∀ fs2 : FileSystem, fs2.hasDir (dirnameStr (pathJoin cfg.workDir filePath)) = true →
      (writeFile cfg fs2 filePath content).1 =
        .ok (fs2.setFile (pathJoin cfg.workDir filePath) content) ∧
      (fs2.setFile (pathJoin cfg.workDir filePath) content).lookupFile
        (pathJoin cfg.workDir filePath) = some content := by
  have hmem : lowerStr (extnameStr filePath) ∈ allowedExtensions := by simpa using h2
  refine ⟨by simp [writeFile, h1, hmem, h3], ?_⟩
  intro fs2 h4
  refine ⟨by simp [writeFile, h1, hmem, h4], ?_⟩
  simp [FileSystem.setFile, FileSystem.lookupFile]

/-- C7 witness: writing `old.txt` (parent exists, file exists) succeeds and
overwrites the previous content. -/
theorem C7_write_no_mkdir_witness :
    (validatePath s1cfg (pathJoin s1cfg.workDir "sub/test.pdf") = true ∧
      allowedExtensions.contains (lowerStr (extnameStr "sub/test.pdf")) = true ∧
      demoFs.hasDir (dirnameStr (pathJoin s1cfg.workDir "sub/test.pdf")) = false) ∧
    ((writeFile s1cfg demoFs "sub/test.pdf" "x").1 =
        .error (.parentDirMissing "sub/test.pdf") ∧
      ∀ fs2 : FileSystem, fs2.hasDir (dirnameStr (pathJoin s1cfg.workDir "sub/test.pdf")) = true →
        (writeFile s1cfg fs2 "sub/test.pdf" "x").1 =
          .ok (fs2.setFile (pathJoin s1cfg.workDir "sub/test.pdf") "x") ∧
        (fs2.setFile (pathJoin s1cfg.workDir "sub/test.pdf") "x").lookupFile
          (pathJoin s1cfg.workDir "sub/test.pdf") = some "x") :=
  ⟨⟨by decide, by decide, by decide⟩,
    C7_write_no_mkdir s1cfg demoFs "sub/test.pdf" "x" (by decide) (by decide) (by decide)⟩

/-- C8, counterexample: JavaScript `String.replace` interprets `$`-patterns
in the replacement string, so `edit` with `newContent = "$$x"` on a file
containing `"Hello Hello"` writes `"$x Hello"`, not the literal
`"$$x Hello"` the claim's "replaces ... with newContent" demands for every
pair of strings. -/
theorem C8_counterexample :
    jsReplaceFirst "Hello Hello" "Hello" "$$x" = "$x Hello" ∧
    (handleEdit s1cfg demoFs "data.txt" "Hello" "$$x").1 =
      .ok (demoFs.setFile "/tmp/s1/data.txt" "$x Hello") ∧
    "$x Hello" ≠ "$$x Hello" := by
  decide

/-- C8 (amended): `edit` fails with content-not-found when `oldContent` is
absent and otherwise rewrites exactly the first occurrence of `oldContent`,
substituting `newContent` under JavaScript replacement-pattern rules — in
particular literally whenever `newContent` contains no `$`; Scenario E holds
(`"Hello Hello"` becomes `"Hi Hello"`, editing `"Nope"` fails). -/
theorem C8_edit_first_occurrence (fs : FileSystem)
    (filePath oldContent newContent content : String) (i : Nat)
    (h1 : validatePath s1cfg (pathJoin s1cfg.workDir filePath) = true)
    (h2 : fs.lookupFile (pathJoin s1cfg.workDir filePath) = some content)
    (h3 : allowedExtensions.contains (lowerStr (extnameStr filePath)) = true)
    (h4 : fs.hasDir (dirnameStr (pathJoin s1cfg.workDir filePath)) = true)
    (h5 : jsIndexOf content oldContent = some i)
    (h6 : ∀ c ∈ newContent.data, c ≠ '$') :
    (handleEdit s1cfg fs filePath oldContent newContent).1 =
      .ok (fs.setFile (pathJoin s1cfg.workDir filePath)
        ⟨content.data.take i ++ newContent.data ++
          content.data.drop (i + oldContent.data.length)⟩) ∧
    oldContent.data.isPrefixOf (content.data.drop i) = true ∧
    (∀ j, j < i → oldContent.data.isPrefixOf (content.data.drop j) = false) ∧
    (∀ absent : String, jsIncludes content absent = false →
      handleEdit s1cfg fs filePath absent newContent = (.error .contentNotFound, [])) ∧
    (handleEdit s1cfg demoFs "data.txt" "Hello" "Hi").1 =
      .ok (demoFs.setFile "/tmp/s1/data.txt" "Hi Hello") ∧
    handleEdit s1cfg demoFs "data.txt" "Nope" "X" = (.error .contentNotFound, []) := by
  have hinc : jsIncludes content oldContent = true := by
    simp [jsIncludes, h5]
  refine ⟨?_, ?_, ?_, ?_, by decide, by decide⟩
  · rw [show (handleEdit s1cfg fs filePath oldContent newContent).1 =
        (writeFile s1cfg fs filePath (jsReplaceFirst content oldContent newContent)).1 from by
      simp [handleEdit, readFile, h1, h2, hinc]]
    rw [jsReplaceFirst_literal content oldContent newContent i h5 h6]
    have hmem : lowerStr (extnameStr filePath) ∈ allowedExtensions := by simpa using h3
    simp [writeFile, h1, hmem, h4]
  · exact idxFrom_isPrefixOf _ _ _ h5
  · exact idxFrom_first _ _ _ h5
  · intro absent habs
    simp [handleEdit, readFile, h1, h2, habs]

/-- C8 witness: Scenario E through the general statement. -/
theorem C8_edit_first_occurrence_witness :
    jsIndexOf "Hello Hello" "Hello" = some 0 ∧
    (handleEdit s1cfg demoFs "data.txt" "Hello" "Hi").1 =
      .ok (demoFs.setFile (pathJoin s1cfg.workDir "data.txt")
        ⟨"Hello Hello".data.take 0 ++ "Hi".data ++
          "Hello Hello".data.drop (0 + "Hello".data.length)⟩) :=
  ⟨by decide,
    (C8_edit_first_occurrence demoFs "data.txt" "Hello" "Hi" "Hello Hello" 0
      (by decide) (by decide) (by decide) (by decide) (by decide) (by decide)).1⟩

/-- C9, counterexample: an out-of-root `write_file` and an out-of-root
`copy_files` destination both fail with access-denied while emitting no audit
event at all — only `read_file` and the command whitelist log security
events, so the claim's "every AccessDenied emits an audit event" is false. -/
theorem C9_counterexample :
    writeFile s1cfg demoFs "../../etc/cron.txt" "x" =
      (.error (.accessDenied "../../etc/cron.txt"), []) ∧
    copyFiles s1cfg demoFs [("/home/u/a.pdf", "../../etc/evil.pdf")] =
      (.error (.accessDenied "../../etc/evil.pdf"), []) := by
  decide

/-- C9 (amended): an `AccessDenied` from `read_file` and a `CommandBlocked`
from `execute_command` each emit exactly one security audit event carrying
the session id and the raw argument before returning, while the
`AccessDenied` failures of `write_file` and `copy_files` emit none. -/
theorem C9_audit_events (fs : FileSystem) (p q src dest content cmd : String)
    (args : List String) (events : List ExecEvent) (rest : List (String × String))
    (h1 : validatePath s1cfg (pathJoin s1cfg.workDir p) = false)
    (h2 : allowedCommands.contains cmd = false)
    (h3 : validatePath s1cfg (pathJoin s1cfg.workDir q) = false)
    (h4 : validatePath s1cfg (pathJoin s1cfg.workDir dest) = false) :
    readFile s1cfg fs p =
      (.error (.accessDenied p), [.fileAccessDenied s1cfg.sessionId p "read"]) ∧
    (executeCommand s1cfg cmd args events).audit =
      [.commandBlocked s1cfg.sessionId cmd args] ∧
    writeFile s1cfg fs q content = (.error (.accessDenied q), []) ∧
    copyFiles s1cfg fs ((src, dest) :: rest) = (.error (.accessDenied dest), []) := by
  have hnot : cmd ∉ allowedCommands := by simpa using h2
  refine ⟨by simp [readFile, h1], by simp [executeCommand, hnot], ?_, ?_⟩
  · simp [writeFile, h3]
  · simp [copyFiles, h4]

/-- C9 witness: concrete out-of-root requests and a blocked command. -/
theorem C9_audit_events_witness :
    (validatePath s1cfg (pathJoin s1cfg.workDir "../../etc/passwd") = false ∧
      allowedCommands.contains "curl" = false) ∧
    readFile s1cfg demoFs "../../etc/passwd" =
      (.error (.accessDenied "../../etc/passwd"),
        [.fileAccessDenied s1cfg.sessionId "../../etc/passwd" "read"]) :=
  ⟨⟨by decide, by decide⟩,
    (C9_audit_events demoFs "../../etc/passwd" "../../etc/passwd" "/home/u/a.pdf"
      "../../etc/passwd" "x" "curl" [] [] [] (by decide) (by decide) (by decide)
      (by decide)).1⟩

/-- C10: a file whose extension is outside the write allow-list (for example
the `.csv` file copied into the sandbox) is readable through the tool
surface, but `edit` on it always fails: even when `oldContent` occurs in the
content, the write-back goes through `writeFile`'s extension gate and fails
with type-not-allowed. -/
theorem C10_edit_gate (fs : FileSystem) (filePath oldContent newContent content : String)
    (h1 : validatePath s1cfg (pathJoin s1cfg.workDir filePath) = true)
    (h2 : fs.lookupFile (pathJoin s1cfg.workDir filePath) = some content)
    (h3 : allowedExtensions.contains (lowerStr (extnameStr filePath)) = false)
    (h4 : jsIncludes content oldContent = true) :
    (readFile s1cfg fs filePath).1 = .ok content ∧
    (handleEdit s1cfg fs filePath oldContent newContent).1 =
      .error (.typeNotAllowed (lowerStr (extnameStr filePath))) := by
  have hmem : lowerStr (extnameStr filePath) ∉ allowedExtensions := by simpa using h3
  constructor
  · simp [readFile, h1, h2]
  · simp [handleEdit, readFile, writeFile, h1, h2, hmem, h4]

/-- C10 witness: the sandboxed `.csv` file is readable but uneditable. -/
theorem C10_edit_gate_witness :
    jsIncludes "a,b" "a" = true ∧
    ((readFile s1cfg demoFs "data.csv").1 = .ok "a,b" ∧
      (handleEdit s1cfg demoFs "data.csv" "a" "z").1 =
        .error (.typeNotAllowed (lowerStr (extnameStr "data.csv")))) :=
  ⟨by decide,
    C10_edit_gate demoFs "data.csv" "a" "z" "a,b" (by decide) (by decide) (by decide)
      (by decide)⟩

end CosmiFill

